import Mathlib

/-!
Verification of the global-index frame sampling / parallel extraction /
pairing pipeline and of the timestamp-drift synchronization analyzer.

The definitions below are shallow embeddings of the Python sources:
frame_extraction.py, multiprocess_extraction.py, frame_stitching.py,
timestamp_analysis.py, video_discovery.py and main.py.  Machine floats
are modelled by exact rationals, microsecond timestamps by integers,
and fallible code by Except / Option.
-/

namespace VideoStitcher

/-- Embedding of FrameExtractor.should_extract_frame
(frame_extraction.py, lines 94-111).  The extractor stores a positive
sampling interval; the global frame number is handed in as an integer.
For a non-positive frame number the guard returns false before the
modulo is evaluated; in the region that reaches the modulo the dividend
is non-negative, so Int.emod agrees with the Python `%` operator. -/
def should_extract_frame (sampling_interval : Nat) (global_frame_number : Int) : Bool :=
  if global_frame_number < 1 then false
  else (global_frame_number - 1) % (sampling_interval : Int) == 0

/-- The list of global frame numbers in 1..F accepted by the sampling
predicate, in increasing order (the traversal order of the extraction
loop in frame_extraction.py, lines 258-284). -/
def acceptedFrames (sampling_interval F : Nat) : List Nat :=
  (List.range' 1 F).filter (fun g => should_extract_frame sampling_interval (g : Int))

lemma should_extract_frame_iff (N : Nat) (g : Int) :
    should_extract_frame N g = true ↔ 1 ≤ g ∧ (g - 1) % (N : Int) = 0 := by
  constructor
  · intro hT
    unfold should_extract_frame at hT
    split at hT
    · exact absurd hT (by simp)
    · rename_i h
      exact ⟨by omega, by simpa using hT⟩
  · rintro ⟨h1, h2⟩
    unfold should_extract_frame
    rw [if_neg (by omega)]
    simpa using h2

lemma should_extract_frame_natCast (N : Nat) (g : Nat) (hg : 1 ≤ g) :
    should_extract_frame N (g : Int) = true ↔ (g - 1) % N = 0 := by
  rw [should_extract_frame_iff]
  have hc : ((g : Int) - 1) = ((g - 1 : Nat) : Int) := by omega
  rw [hc]
  constructor
  · rintro ⟨-, h⟩
    exact_mod_cast h
  · intro h
    exact ⟨by exact_mod_cast hg, by exact_mod_cast h⟩

/-- Closed form of the accepted-frame list: it is exactly the arithmetic
progression 1, 1+N, 1+2N, ... truncated at F. -/
lemma acceptedFrames_closed (N F : Nat) (hN : 1 ≤ N) (hF : 1 ≤ F) :
    acceptedFrames N F = (List.range ((F - 1) / N + 1)).map (fun k => 1 + k * N) := by
  induction F, hF using Nat.le_induction with
  | base =>
      have h1 : should_extract_frame N (1 : Int) = true := by
        rw [should_extract_frame_iff]
        norm_num
      unfold acceptedFrames
      rw [show List.range' 1 1 = [1] from rfl]
      simp [h1, List.range_succ]
  | succ F hF ih =>
      have hsplit : List.range' 1 (F + 1) = List.range' 1 F ++ [1 + F] := by
        have h := List.range'_append 1 F 1 1
        rw [show (1 + 1 * F) = 1 + F by ring] at h
        rw [show List.range' (1 + F) 1 = [1 + F] from rfl] at h
        rw [show F + 1 = 1 + F by ring]
        exact h.symm
      unfold acceptedFrames at ih ⊢
      rw [hsplit, List.filter_append, ih]
      have hmem : should_extract_frame N (1 + (F : Int)) = true ↔ (F % N = 0) := by
        have h := should_extract_frame_natCast N (1 + F) (by omega)
        rw [show ((1 + F : Nat) : Int) = 1 + (F : Int) by push_cast; ring] at h
        rw [show 1 + F - 1 = F by omega] at h
        exact h
      have hdiv : (F + 1 - 1) / N = (F - 1) / N + if N ∣ F then 1 else 0 := by
        rw [show F + 1 - 1 = (F - 1) + 1 by omega, Nat.succ_div,
          show F - 1 + 1 = F by omega]
      by_cases hd : N ∣ F
      · have hmod : F % N = 0 := Nat.mod_eq_zero_of_dvd hd
        have hsing : List.filter (fun g => should_extract_frame N ((g : Nat) : Int)) [1 + F]
            = ([1 + F] : List Nat) := by
          simp [hmem.mpr hmod]
        rw [hsing]
        rw [hdiv, if_pos hd]
        conv_rhs => rw [List.range_succ, List.map_append]
        congr 1
        simp only [List.map_cons, List.map_nil]
        congr 1
        -- need 1 + F = 1 + ((F - 1) / N + 1) * N
        obtain ⟨q, hq⟩ := hd
        have hq1 : 1 ≤ q := by
          rcases Nat.eq_zero_or_pos q with h0 | h1
          · subst h0
            simp at hq
            omega
          · exact h1
        have hsub : F - 1 = N * (q - 1) + (N - 1) := by
          subst hq
          cases q with
          | zero => omega
          | succ q => simp [Nat.mul_succ]; omega
        have hdq : (F - 1) / N = q - 1 := by
          rw [hsub, Nat.mul_add_div (by omega)]
          have : (N - 1) / N = 0 := Nat.div_eq_of_lt (by omega)
          omega
        rw [hdq, show (q - 1 + 1) = q by omega, hq]
        ring
      · have hmod : ¬ (F % N = 0) := fun h => hd (Nat.dvd_of_mod_eq_zero h)
        have hfalse : should_extract_frame N (1 + (F : Int)) = false := by
          rw [Bool.eq_false_iff]
          exact fun h => hmod (hmem.mp h)
        have hsing : List.filter (fun g => should_extract_frame N ((g : Nat) : Int)) [1 + F]
            = ([] : List Nat) := by
          simp [hfalse]
        rw [hsing]
        rw [hdiv, if_neg hd]
        simp

/-- C1: for every sampling interval N at least 1, the predicate
should_extract_frame accepts g iff g is at least 1 and (g - 1) mod N = 0;
over the range 1..F the accepted global frame numbers are exactly the
numbers 1 + k * N inside [1, F], the first accepted frame number is 1,
and consecutive accepted numbers differ by exactly N.  The predicate is
a pure function of g and N alone (it takes no other argument), so it
cannot depend on traversal state. -/
theorem sampling_pattern (N F : Nat) (hN : 1 ≤ N) (hF : 1 ≤ F) :
    (∀ g : Int, should_extract_frame N g = true ↔ 1 ≤ g ∧ (g - 1) % (N : Int) = 0)
    ∧ (∀ g : Nat, g ∈ acceptedFrames N F ↔ ((∃ k : Nat, g = 1 + k * N) ∧ 1 ≤ g ∧ g ≤ F))
    ∧ (acceptedFrames N F).head? = some 1
    ∧ (∀ i : Nat, i + 1 < (acceptedFrames N F).length →
        (acceptedFrames N F).getD (i + 1) 0
          = (acceptedFrames N F).getD i 0 + N) := by
  have hclosed := acceptedFrames_closed N F hN hF
  refine ⟨fun g => should_extract_frame_iff N g, ?_, ?_, ?_⟩
  · intro g
    rw [hclosed]
    simp only [List.mem_map, List.mem_range]
    constructor
    · rintro ⟨k, hk, rfl⟩
      refine ⟨⟨k, rfl⟩, by omega, ?_⟩
      have hk2 : k ≤ (F - 1) / N := by omega
      have := Nat.mul_le_mul_right N hk2
      have h3 := Nat.div_mul_le_self (F - 1) N
      omega
    · rintro ⟨⟨k, rfl⟩, h1, h2⟩
      refine ⟨k, ?_, rfl⟩
      have hk : k * N ≤ F - 1 := by omega
      have : k ≤ (F - 1) / N := (Nat.le_div_iff_mul_le (by omega)).mpr hk
      omega
  · rw [hclosed]
    have : (F - 1) / N + 1 = ((F - 1) / N) + 1 := rfl
    rw [List.range_succ_eq_map]
    simp
  · intro i h1
    rw [hclosed] at h1 ⊢
    have hlen : ((List.range ((F - 1) / N + 1)).map (fun k => 1 + k * N)).length
        = (F - 1) / N + 1 := by simp
    have h2 : i + 1 < (F - 1) / N + 1 := by omega
    rw [List.getD_eq_getElem _ _ (by simpa using h2),
      List.getD_eq_getElem _ _ (by simp; omega)]
    simp only [List.getElem_map, List.getElem_range]
    ring

/-- Witness for sampling_pattern at N = 2, F = 5 (accepted frames
[1, 3, 5]). -/
theorem sampling_pattern_witness : (acceptedFrames 2 5).head? = some 1 :=
  (sampling_pattern 2 5 (by decide) (by decide)).2.2.1

/-- Embedding of the VideoSegment records discovered by
video_discovery.py.  The camera a segment belongs to is given by which
of the two per-camera lists it sits in, exactly as in the scheduler
arguments cam0_segments and cam1_segments.  The field file_openable is
the environment: whether cv2.VideoCapture can open and fully decode the
file at file_path (multiprocess_extraction.py, lines 50-54 and 93-95);
the path itself is an uninterpreted string. -/
structure VideoSegment where
  segment_number : Nat
  frame_count : Nat
  file_path : String
  file_openable : Bool
deriving DecidableEq, Repr

/-- Embedding of SegmentExtractionTask (multiprocess_extraction.py,
lines 16-27).  The three overlay options only alter pixel content, which
is outside the model, so they are not carried. -/
structure SegmentExtractionTask where
  segment : VideoSegment
  camera_id : String
  output_dir : String
  sampling_interval : Nat
  output_format : String
  global_frame_offset : Nat
deriving DecidableEq, Repr

/-- Embedding of the frame metadata dictionary built by
extract_segment_frames (multiprocess_extraction.py, lines 77-81). -/
structure FrameMeta where
  global_frame_number : Nat
  camera_id : String
  file_path : String
deriving DecidableEq, Repr

/-- Zero padding of the frame number to at least four digits, the format
frame_XXXX used by FrameExtractor.save_frame (frame_extraction.py,
line 206). -/
def padFrameNumber (g : Nat) : String :=
  let s := toString g
  String.mk (List.replicate (4 - s.length) '0') ++ s

/-- Path of the image written by FrameExtractor.save_frame
(frame_extraction.py, lines 205-207). -/
def savedFramePath (output_dir : String) (g : Nat) (fmt : String) : String :=
  output_dir ++ "/frame_" ++ padFrameNumber g ++ "." ++ fmt

/-- The global frame numbers visited by the decode loop of
extract_segment_frames (multiprocess_extraction.py, lines 59-65): local
frame numbers run 1..frame_count and the global number of local frame l
is global_frame_offset + l. -/
def localGlobalNumbers (task : SegmentExtractionTask) : List Nat :=
  (List.range task.segment.frame_count).map (fun l => task.global_frame_offset + (l + 1))

/-- Embedding of extract_segment_frames (multiprocess_extraction.py,
lines 30-103).  A segment whose file cannot be opened, or whose decode
raises, yields the empty list (lines 52-54 and 93-95); otherwise every
visited global frame number is tested with should_extract_frame
(line 68) and the sampled ones are recorded as metadata (lines 70-82). -/
def extract_segment_frames (task : SegmentExtractionTask) : List FrameMeta :=
  if task.segment.file_openable = false then []
  else
    ((localGlobalNumbers task).filter
        (fun g : Nat => should_extract_frame task.sampling_interval (g : Int))).map
      (fun g => { global_frame_number := g, camera_id := task.camera_id,
                  file_path := savedFramePath task.output_dir g task.output_format })

instance : DecidableRel (fun a b : VideoSegment => a.segment_number ≤ b.segment_number) :=
  fun _ _ => Nat.decLe _ _

instance : IsTotal VideoSegment (fun a b => a.segment_number ≤ b.segment_number) :=
  ⟨fun a b => Nat.le_total a.segment_number b.segment_number⟩

instance : IsTrans VideoSegment (fun a b => a.segment_number ≤ b.segment_number) :=
  ⟨fun _ _ _ h1 h2 => le_trans h1 h2⟩

/-- Stable ascending sort by segment_number, as in
`sorted(segments, key=lambda s: s.segment_number)`
(multiprocess_extraction.py, lines 143 and 156).  Python sorted is a
stable comparison sort; List.insertionSort is the stable sort of the
library. -/
def sortSegments (segments : List VideoSegment) : List VideoSegment :=
  List.insertionSort (fun a b => a.segment_number ≤ b.segment_number) segments

/-- The offset-accumulating task construction loop of
MultiprocessExtractor.extract_all_frames (multiprocess_extraction.py,
lines 141-152 for cam0 and lines 154-165 for cam1): walking the sorted
segments, each segment gets one task carrying the running offset, and
frame_count is then added to the offset. -/
def buildTasksFrom (camera_id output_dir : String) (sampling_interval : Nat)
    (output_format : String) :
    List VideoSegment → Nat → List SegmentExtractionTask
  | [], _ => []
  | s :: rest, offset =>
      { segment := s, camera_id := camera_id, output_dir := output_dir,
        sampling_interval := sampling_interval, output_format := output_format,
        global_frame_offset := offset }
        :: buildTasksFrom camera_id output_dir sampling_interval output_format rest
            (offset + s.frame_count)

/-- One extraction task per segment of one camera, in ascending
segment_number order, with exclusive-prefix-sum offsets. -/
def buildTasks (camera_id output_dir : String) (sampling_interval : Nat)
    (output_format : String) (segments : List VideoSegment) :
    List SegmentExtractionTask :=
  buildTasksFrom camera_id output_dir sampling_interval output_format
    (sortSegments segments) 0

lemma buildTasksFrom_segment_mem {cid dir : String} {N : Nat} {fmt : String} :
    ∀ (l : List VideoSegment) (off : Nat) (t : SegmentExtractionTask),
      t ∈ buildTasksFrom cid dir N fmt l off → t.segment ∈ l := by
  intro l
  induction l with
  | nil =>
      intro off t ht
      simp [buildTasksFrom] at ht
  | cons s rest ih =>
      intro off t ht
      simp only [buildTasksFrom, List.mem_cons] at ht
      rcases ht with h | h
      · subst h
        exact List.mem_cons_self _ _
      · exact List.mem_cons_of_mem _ (ih _ t h)

lemma buildTasksFrom_offset {cid dir : String} {N : Nat} {fmt : String} :
    ∀ (l : List VideoSegment) (off : Nat),
      List.Pairwise (fun a b => a.segment_number ≤ b.segment_number) l →
      (l.map VideoSegment.segment_number).Nodup →
      ∀ t ∈ buildTasksFrom cid dir N fmt l off,
        t.global_frame_offset
          = off + ((l.filter
              (fun s => s.segment_number < t.segment.segment_number)).map
                VideoSegment.frame_count).sum := by
  intro l
  induction l with
  | nil =>
      intro off _ _ t ht
      simp [buildTasksFrom] at ht
  | cons s rest ih =>
      intro off hsort hnodup t ht
      obtain ⟨hhead, htail⟩ := List.pairwise_cons.mp hsort
      obtain ⟨hnotmem, hnodup2⟩ := List.nodup_cons.mp
        (by rw [List.map_cons] at hnodup; exact hnodup)
      simp only [buildTasksFrom, List.mem_cons] at ht
      rcases ht with h | h
      · subst h
        have hfilter : (s :: rest).filter
            (fun x => x.segment_number < s.segment_number) = [] := by
          rw [List.filter_eq_nil_iff]
          intro a ha
          simp only [decide_eq_true_eq]
          rcases List.mem_cons.mp ha with rfl | ha2
          · omega
          · exact not_lt.mpr (hhead a ha2)
        simp [hfilter]
      · have hmem := buildTasksFrom_segment_mem rest (off + s.frame_count) t h
        have hlt : s.segment_number < t.segment.segment_number := by
          have hle := hhead t.segment hmem
          have hne : s.segment_number ≠ t.segment.segment_number := by
            intro heq
            exact hnotmem (heq ▸ List.mem_map_of_mem VideoSegment.segment_number hmem)
          omega
        have hfilter : (s :: rest).filter
            (fun x => x.segment_number < t.segment.segment_number)
            = s :: rest.filter (fun x => x.segment_number < t.segment.segment_number) :=
          List.filter_cons_of_pos (by simpa using hlt)
        rw [hfilter]
        have := ih (off + s.frame_count) htail hnodup2 t h
        simp only [List.map_cons, List.sum_cons]
        omega

/-- Offsets produced by the task construction are the sums of
frame_count over the same-camera segments with strictly smaller
segment_number, stated over the original (unsorted) segment list. -/
lemma buildTasks_offset (cid dir : String) (N : Nat) (fmt : String)
    (segments : List VideoSegment)
    (hnodup : (segments.map VideoSegment.segment_number).Nodup) :
    ∀ t ∈ buildTasks cid dir N fmt segments,
      t.global_frame_offset
        = ((segments.filter
            (fun s => s.segment_number < t.segment.segment_number)).map
              VideoSegment.frame_count).sum := by
  intro t ht
  have hperm : (sortSegments segments).Perm segments :=
    List.perm_insertionSort _ segments
  have hsorted : List.Pairwise (fun a b => a.segment_number ≤ b.segment_number)
      (sortSegments segments) :=
    List.sorted_insertionSort _ segments
  have hnodup2 : ((sortSegments segments).map VideoSegment.segment_number).Nodup :=
    ((hperm.map VideoSegment.segment_number).nodup_iff).mpr hnodup
  have h := buildTasksFrom_offset (sortSegments segments) 0 hsorted hnodup2 t ht
  rw [h, Nat.zero_add]
  exact List.Perm.sum_eq ((hperm.filter _).map VideoSegment.frame_count)

/-- C2: for every per-camera segment list with pairwise-distinct segment
numbers (segment_number is the ordering key; gaps are permitted), the
global frame offset carried by each scheduled task equals the sum of
frame_count over the same-camera segments with strictly smaller
segment_number, and the global frame number assigned to the i-th local
frame (1-indexed) of that segment is the offset plus i. -/
theorem offset_correctness (cid dir : String) (N : Nat) (fmt : String)
    (segments : List VideoSegment)
    (hnodup : (segments.map VideoSegment.segment_number).Nodup) :
    ∀ t ∈ buildTasks cid dir N fmt segments,
      t.global_frame_offset
          = ((segments.filter
              (fun s => s.segment_number < t.segment.segment_number)).map
                VideoSegment.frame_count).sum
      ∧ ∀ i : Nat, 1 ≤ i → i ≤ t.segment.frame_count →
          (localGlobalNumbers t).getD (i - 1) 0 = t.global_frame_offset + i := by
  intro t ht
  refine ⟨buildTasks_offset cid dir N fmt segments hnodup t ht, ?_⟩
  intro i h1 h2
  unfold localGlobalNumbers
  have hlen : ((List.range t.segment.frame_count).map
      (fun l => t.global_frame_offset + (l + 1))).length = t.segment.frame_count := by
    simp
  rw [List.getD_eq_getElem _ _ (by simp; omega)]
  simp only [List.getElem_map, List.getElem_range]
  omega

/-- Witness for offset_correctness: two segments with frame counts 10
(segment 1) and 30 (segment 2), handed over in reverse order; the task
for segment 2 carries offset 10, and its 5th local frame has global
number 15. -/
theorem offset_correctness_witness :
    ({ segment := ⟨2, 30, "b.mp4", true⟩, camera_id := "cam0", output_dir := "out",
       sampling_interval := 100, output_format := "png",
       global_frame_offset := 10 } : SegmentExtractionTask).global_frame_offset
      = ((([⟨2, 30, "b.mp4", true⟩, ⟨1, 10, "a.mp4", true⟩] : List VideoSegment).filter
          (fun s => s.segment_number < 2)).map VideoSegment.frame_count).sum
    ∧ (localGlobalNumbers
        { segment := ⟨2, 30, "b.mp4", true⟩, camera_id := "cam0", output_dir := "out",
          sampling_interval := 100, output_format := "png",
          global_frame_offset := 10 }).getD (5 - 1) 0 = 10 + 5 := by
  have h := offset_correctness "cam0" "out" 100 "png"
    [⟨2, 30, "b.mp4", true⟩, ⟨1, 10, "a.mp4", true⟩] (by decide)
    { segment := ⟨2, 30, "b.mp4", true⟩, camera_id := "cam0", output_dir := "out",
      sampling_interval := 100, output_format := "png", global_frame_offset := 10 }
    (by decide)
  exact ⟨h.1, h.2 5 (by decide) (by decide)⟩

instance : DecidableRel
    (fun a b : FrameMeta => a.global_frame_number ≤ b.global_frame_number) :=
  fun _ _ => Nat.decLe _ _

instance : IsTotal FrameMeta
    (fun a b => a.global_frame_number ≤ b.global_frame_number) :=
  ⟨fun a b => Nat.le_total a.global_frame_number b.global_frame_number⟩

instance : IsTrans FrameMeta
    (fun a b => a.global_frame_number ≤ b.global_frame_number) :=
  ⟨fun _ _ _ h1 h2 => le_trans h1 h2⟩

/-- The mandatory final per-camera sort by global frame number,
`results.sort(key=lambda x: x[...])` (multiprocess_extraction.py,
lines 223-225).  Python list.sort is a stable comparison sort;
List.insertionSort is the stable sort of the library. -/
def sortFrames (frames : List FrameMeta) : List FrameMeta :=
  List.insertionSort
    (fun a b => a.global_frame_number ≤ b.global_frame_number) frames

/-- Concatenation of the per-task result lists of one camera in the
order the tasks were submitted; any completion order of the pool yields
a permutation of this list (collected with extend, lines 194-201 of
multiprocess_extraction.py). -/
def taskResults (tasks : List SegmentExtractionTask) : List FrameMeta :=
  (tasks.map extract_segment_frames).flatten

/-- Embedding of MultiprocessExtractor.extract_all_frames
(multiprocess_extraction.py, lines 120-234), with the worker pool
completions taken in submission order; order_independence below shows
that every completion order produces these same two sorted lists. -/
def extract_all_frames (cam0_segments cam1_segments : List VideoSegment)
    (extraction_dir0 extraction_dir1 : String) (sampling_interval : Nat)
    (output_format : String) : List FrameMeta × List FrameMeta :=
  (sortFrames (taskResults
      (buildTasks "cam0" extraction_dir0 sampling_interval output_format cam0_segments)),
   sortFrames (taskResults
      (buildTasks "cam1" extraction_dir1 sampling_interval output_format cam1_segments)))

/-- Embedding of the zero-segment guard of main.run (main.py, lines
241-246) composed with the multiprocess extraction call (main.py,
lines 320-336): the run aborts before any task is scheduled iff one
camera has no segments; after that point the scheduler is a total
function and never aborts. -/
def runExtraction (cam0_segments cam1_segments : List VideoSegment)
    (extraction_dir0 extraction_dir1 : String) (sampling_interval : Nat)
    (output_format : String) : Except String (List FrameMeta × List FrameMeta) :=
  if cam0_segments.isEmpty || cam1_segments.isEmpty then
    Except.error "Need video segments from both cameras"
  else
    Except.ok (extract_all_frames cam0_segments cam1_segments
      extraction_dir0 extraction_dir1 sampling_interval output_format)

lemma extract_segment_frames_key_mem (t : SegmentExtractionTask) (f : FrameMeta) :
    f ∈ extract_segment_frames t ↔
      t.segment.file_openable = true
      ∧ f.global_frame_number ∈ localGlobalNumbers t
      ∧ should_extract_frame t.sampling_interval (f.global_frame_number : Int) = true
      ∧ f.camera_id = t.camera_id
      ∧ f.file_path = savedFramePath t.output_dir f.global_frame_number t.output_format := by
  unfold extract_segment_frames
  by_cases hopen : t.segment.file_openable
  · rw [if_neg (by simp [hopen])]
    simp only [List.mem_map, List.mem_filter]
    constructor
    · rintro ⟨g, ⟨hg1, hg2⟩, rfl⟩
      exact ⟨hopen, hg1, hg2, rfl, rfl⟩
    · rintro ⟨-, h1, h2, h3, h4⟩
      refine ⟨f.global_frame_number, ⟨h1, h2⟩, ?_⟩
      cases f
      simp_all
  · simp [hopen]

lemma localGlobalNumbers_mem (t : SegmentExtractionTask) (g : Nat) :
    g ∈ localGlobalNumbers t ↔
      t.global_frame_offset < g
      ∧ g ≤ t.global_frame_offset + t.segment.frame_count := by
  unfold localGlobalNumbers
  simp only [List.mem_map, List.mem_range]
  constructor
  · rintro ⟨l, hl, rfl⟩
    omega
  · rintro ⟨h1, h2⟩
    exact ⟨g - t.global_frame_offset - 1, by omega, by omega⟩

lemma localGlobalNumbers_pairwise (t : SegmentExtractionTask) :
    List.Pairwise (fun a b => a < b) (localGlobalNumbers t) := by
  unfold localGlobalNumbers
  rw [List.pairwise_map]
  exact (List.pairwise_lt_range _).imp (by omega)

lemma extract_segment_frames_pairwise (t : SegmentExtractionTask) :
    List.Pairwise (fun a b => a.global_frame_number < b.global_frame_number)
      (extract_segment_frames t) := by
  unfold extract_segment_frames
  split
  · exact List.Pairwise.nil
  · rw [List.pairwise_map]
    exact (localGlobalNumbers_pairwise t).filter _

/-- Keys in the concatenated per-task results of one camera are strictly
increasing: the tasks are visited in ascending offset order and each
task only emits keys inside its own offset range. -/
lemma taskResults_pairwise (cid dir : String) (N : Nat) (fmt : String) :
    ∀ (l : List VideoSegment) (off : Nat),
      (∀ f ∈ taskResults (buildTasksFrom cid dir N fmt l off),
          off < f.global_frame_number)
      ∧ List.Pairwise (fun a b => a.global_frame_number < b.global_frame_number)
          (taskResults (buildTasksFrom cid dir N fmt l off)) := by
  intro l
  induction l with
  | nil =>
      intro off
      constructor
      · intro f hf
        simp [taskResults, buildTasksFrom] at hf
      · simp [taskResults, buildTasksFrom]
  | cons s rest ih =>
      intro off
      have hsplit : taskResults (buildTasksFrom cid dir N fmt (s :: rest) off)
          = extract_segment_frames
              { segment := s, camera_id := cid, output_dir := dir,
                sampling_interval := N, output_format := fmt,
                global_frame_offset := off }
            ++ taskResults (buildTasksFrom cid dir N fmt rest (off + s.frame_count)) := by
        simp [taskResults, buildTasksFrom]
      obtain ⟨ihlo, ihpw⟩ := ih (off + s.frame_count)
      have hhead : ∀ f ∈ extract_segment_frames
          { segment := s, camera_id := cid, output_dir := dir,
            sampling_interval := N, output_format := fmt,
            global_frame_offset := off },
          off < f.global_frame_number
            ∧ f.global_frame_number ≤ off + s.frame_count := by
        intro f hf
        obtain ⟨-, hmem, -⟩ := (extract_segment_frames_key_mem _ f).mp hf
        exact (localGlobalNumbers_mem _ _).mp hmem
      rw [hsplit]
      constructor
      · intro f hf
        rcases List.mem_append.mp hf with h | h
        · exact (hhead f h).1
        · have := ihlo f h
          omega
      · rw [List.pairwise_append]
        refine ⟨extract_segment_frames_pairwise _, ihpw, ?_⟩
        intro a ha b hb
        have h1 := (hhead a ha).2
        have h2 := ihlo b hb
        omega

lemma taskResults_nodup_keys (cid dir : String) (N : Nat) (fmt : String)
    (segments : List VideoSegment) :
    ((taskResults (buildTasks cid dir N fmt segments)).map
      FrameMeta.global_frame_number).Nodup := by
  have hpw := (taskResults_pairwise cid dir N fmt (sortSegments segments) 0).2
  have : List.Pairwise (fun a b : FrameMeta =>
      a.global_frame_number ≠ b.global_frame_number)
      (taskResults (buildTasks cid dir N fmt segments)) :=
    hpw.imp (fun h => Nat.ne_of_lt h)
  exact List.pairwise_map.mpr this

lemma sortFrames_perm (l : List FrameMeta) : (sortFrames l).Perm l :=
  List.perm_insertionSort _ l

lemma sortFrames_sorted (l : List FrameMeta) :
    List.Pairwise (fun a b => a.global_frame_number ≤ b.global_frame_number)
      (sortFrames l) :=
  List.sorted_insertionSort _ l

lemma pairwise_lt_of_le_nodup (l : List FrameMeta)
    (hle : List.Pairwise (fun a b => a.global_frame_number ≤ b.global_frame_number) l)
    (hnodup : (l.map FrameMeta.global_frame_number).Nodup) :
    List.Pairwise (fun a b => a.global_frame_number < b.global_frame_number) l := by
  have hne : List.Pairwise (fun a b : FrameMeta =>
      a.global_frame_number ≠ b.global_frame_number) l :=
    List.pairwise_map.mp hnodup
  exact (hle.and hne).imp (fun h => lt_of_le_of_ne h.1 h.2)

/-- Sorting is canonical on key-distinct collections: two permutations
of the same frame collection sort to the same list. -/
lemma sortFrames_eq_of_perm (l1 l2 : List FrameMeta) (hperm : l1.Perm l2)
    (hnodup : (l1.map FrameMeta.global_frame_number).Nodup) :
    sortFrames l1 = sortFrames l2 := by
  have hp : (sortFrames l1).Perm (sortFrames l2) :=
    ((sortFrames_perm l1).trans hperm).trans (sortFrames_perm l2).symm
  have hn1 : ((sortFrames l1).map FrameMeta.global_frame_number).Nodup :=
    (((sortFrames_perm l1).map FrameMeta.global_frame_number).nodup_iff).mpr hnodup
  have hn2 : ((sortFrames l2).map FrameMeta.global_frame_number).Nodup :=
    ((hp.map FrameMeta.global_frame_number).nodup_iff).mp hn1
  have hs1 := pairwise_lt_of_le_nodup _ (sortFrames_sorted l1) hn1
  have hs2 := pairwise_lt_of_le_nodup _ (sortFrames_sorted l2) hn2
  haveI : IsAntisymm FrameMeta
      (fun a b => a.global_frame_number < b.global_frame_number) :=
    ⟨fun _ _ h1 h2 => (Nat.lt_asymm h1 h2).elim⟩
  exact List.eq_of_perm_of_sorted hp hs1 hs2

/-- C3: the two per-camera lists produced by the scheduler are strictly
ascending in global_frame_number, and the final result is identical for
every permutation of task completion order: sorting the concatenation
of the per-segment result lists in any completion order yields exactly
the lists of extract_all_frames, which concatenates in submission
order. -/
theorem order_independence (cam0_segments cam1_segments : List VideoSegment)
    (d0 d1 : String) (N : Nat) (fmt : String)
    (completed0 completed1 : List (List FrameMeta))
    (h0 : completed0.Perm
      ((buildTasks "cam0" d0 N fmt cam0_segments).map extract_segment_frames))
    (h1 : completed1.Perm
      ((buildTasks "cam1" d1 N fmt cam1_segments).map extract_segment_frames)) :
    (sortFrames completed0.flatten, sortFrames completed1.flatten)
        = extract_all_frames cam0_segments cam1_segments d0 d1 N fmt
    ∧ List.Pairwise (fun a b => a.global_frame_number < b.global_frame_number)
        (extract_all_frames cam0_segments cam1_segments d0 d1 N fmt).1
    ∧ List.Pairwise (fun a b => a.global_frame_number < b.global_frame_number)
        (extract_all_frames cam0_segments cam1_segments d0 d1 N fmt).2 := by
  have hflat0 : completed0.flatten.Perm
      (taskResults (buildTasks "cam0" d0 N fmt cam0_segments)) :=
    h0.flatten
  have hflat1 : completed1.flatten.Perm
      (taskResults (buildTasks "cam1" d1 N fmt cam1_segments)) :=
    h1.flatten
  have hn0 := taskResults_nodup_keys "cam0" d0 N fmt cam0_segments
  have hn1 := taskResults_nodup_keys "cam1" d1 N fmt cam1_segments
  have hc0 : (completed0.flatten.map FrameMeta.global_frame_number).Nodup :=
    ((hflat0.map FrameMeta.global_frame_number).nodup_iff).mpr hn0
  have hc1 : (completed1.flatten.map FrameMeta.global_frame_number).Nodup :=
    ((hflat1.map FrameMeta.global_frame_number).nodup_iff).mpr hn1
  refine ⟨?_, ?_, ?_⟩
  · unfold extract_all_frames
    rw [sortFrames_eq_of_perm _ _ hflat0 hc0, sortFrames_eq_of_perm _ _ hflat1 hc1]
  · refine pairwise_lt_of_le_nodup _ (sortFrames_sorted _) ?_
    exact (((sortFrames_perm _).map FrameMeta.global_frame_number).nodup_iff).mpr hn0
  · refine pairwise_lt_of_le_nodup _ (sortFrames_sorted _) ?_
    exact (((sortFrames_perm _).map FrameMeta.global_frame_number).nodup_iff).mpr hn1

/-- Witness for order_independence: two cam0 segments of 2 frames each
and one cam1 segment, interval 1, with the per-task results collected in
reversed completion order. -/
theorem order_independence_witness :
    (sortFrames (((buildTasks "cam0" "d0" 1 "png"
          [⟨1, 2, "a.mp4", true⟩, ⟨2, 2, "b.mp4", true⟩]).map
            extract_segment_frames).reverse.flatten),
     sortFrames (((buildTasks "cam1" "d1" 1 "png"
          [⟨1, 2, "c.mp4", true⟩]).map extract_segment_frames).reverse.flatten))
      = extract_all_frames [⟨1, 2, "a.mp4", true⟩, ⟨2, 2, "b.mp4", true⟩]
          [⟨1, 2, "c.mp4", true⟩] "d0" "d1" 1 "png" :=
  (order_independence [⟨1, 2, "a.mp4", true⟩, ⟨2, 2, "b.mp4", true⟩]
    [⟨1, 2, "c.mp4", true⟩] "d0" "d1" 1 "png" _ _
    (List.reverse_perm _) (List.reverse_perm _)).1

lemma buildTasksFrom_fields {cid dir : String} {N : Nat} {fmt : String} :
    ∀ (l : List VideoSegment) (off : Nat) (t : SegmentExtractionTask),
      t ∈ buildTasksFrom cid dir N fmt l off →
        t.camera_id = cid ∧ t.output_dir = dir
        ∧ t.sampling_interval = N ∧ t.output_format = fmt := by
  intro l
  induction l with
  | nil =>
      intro off t ht
      simp [buildTasksFrom] at ht
  | cons s rest ih =>
      intro off t ht
      simp only [buildTasksFrom, List.mem_cons] at ht
      rcases ht with h | h
      · subst h
        exact ⟨rfl, rfl, rfl, rfl⟩
      · exact ih _ t h

/-- C7: a task whose segment cannot be opened or decoded contributes the
empty list and nothing else changes — every frame of the final cam0
collection is characterized task-locally, so the contribution of each
task is independent of every other task — and the pipeline aborts iff
one camera has zero segments (zero tasks to schedule); the extraction
functions are total, so no task failure can abort the batch. -/
theorem extraction_failure_policy (c0 c1 : List VideoSegment)
    (d0 d1 : String) (N : Nat) (fmt : String) :
    ((∃ e, runExtraction c0 c1 d0 d1 N fmt = Except.error e) ↔ (c0 = [] ∨ c1 = []))
    ∧ (∀ t : SegmentExtractionTask, t.segment.file_openable = false →
        extract_segment_frames t = [])
    ∧ (∀ f : FrameMeta, f ∈ (extract_all_frames c0 c1 d0 d1 N fmt).1 ↔
        ∃ t ∈ buildTasks "cam0" d0 N fmt c0,
          t.segment.file_openable = true
          ∧ t.global_frame_offset < f.global_frame_number
          ∧ f.global_frame_number ≤ t.global_frame_offset + t.segment.frame_count
          ∧ should_extract_frame N (f.global_frame_number : Int) = true
          ∧ f.camera_id = "cam0"
          ∧ f.file_path = savedFramePath d0 f.global_frame_number fmt) := by
  refine ⟨?_, ?_, ?_⟩
  · constructor
    · rintro ⟨e, he⟩
      by_cases h : (c0.isEmpty || c1.isEmpty) = true
      · rcases Bool.or_eq_true_iff.mp h with h1 | h1
        · exact Or.inl (List.isEmpty_iff.mp h1)
        · exact Or.inr (List.isEmpty_iff.mp h1)
      · unfold runExtraction at he
        rw [if_neg h] at he
        exact absurd he (by simp)
    · intro h
      refine ⟨"Need video segments from both cameras", ?_⟩
      unfold runExtraction
      rw [if_pos ?_]
      rcases h with h | h
      · subst h
        simp
      · subst h
        simp
  · intro t ht
    unfold extract_segment_frames
    rw [if_pos ht]
  · intro f
    have hmem : f ∈ (extract_all_frames c0 c1 d0 d1 N fmt).1
        ↔ f ∈ taskResults (buildTasks "cam0" d0 N fmt c0) := by
      unfold extract_all_frames
      exact (sortFrames_perm _).mem_iff
    rw [hmem]
    unfold taskResults
    simp only [List.mem_flatten, List.mem_map]
    constructor
    · rintro ⟨ll, ⟨t, ht, rfl⟩, hf⟩
      obtain ⟨hcid, hdir, hN, hfmt⟩ := buildTasksFrom_fields _ _ t ht
      obtain ⟨hopen, hkey, hsample, hcam, hpath⟩ :=
        (extract_segment_frames_key_mem t f).mp hf
      obtain ⟨hlo, hhi⟩ := (localGlobalNumbers_mem t _).mp hkey
      exact ⟨t, ht, hopen, hlo, hhi, hN ▸ hsample, hcid ▸ hcam,
        by rw [hpath, hdir, hfmt]⟩
    · rintro ⟨t, ht, hopen, hlo, hhi, hsample, hcam, hpath⟩
      obtain ⟨hcid, hdir, hN, hfmt⟩ := buildTasksFrom_fields _ _ t ht
      refine ⟨extract_segment_frames t, ⟨t, ht, rfl⟩, ?_⟩
      rw [extract_segment_frames_key_mem]
      exact ⟨hopen, (localGlobalNumbers_mem t _).mpr ⟨hlo, hhi⟩,
        by rw [hN]; exact hsample, by rw [hcid]; exact hcam,
        by rw [hdir, hfmt]; exact hpath⟩

/-- Witness for extraction_failure_policy: with no cam0 segments the
pipeline aborts with the zero-segment error. -/
theorem extraction_failure_policy_witness :
    ∃ e, runExtraction [] [⟨1, 2, "c.mp4", true⟩] "d0" "d1" 1 "png"
      = Except.error e :=
  (extraction_failure_policy [] [⟨1, 2, "c.mp4", true⟩]
    "d0" "d1" 1 "png").1.mpr (Or.inl rfl)

/-- Last-wins key lookup, modelling the dict comprehensions of
FrameStitcher.find_frame_pairs (frame_stitching.py, lines 72-74): in a
Python dict comprehension a later frame with the same key overwrites an
earlier one, so the lookup returns the last frame with the given global
frame number. -/
def camMapLookup (frames : List FrameMeta) (n : Nat) : Option FrameMeta :=
  (frames.filter (fun f => f.global_frame_number == n)).getLast?

/-- The key set of one camera as a deduplicated list (the keys of the
dict built in find_frame_pairs). -/
def frameKeys (frames : List FrameMeta) : List Nat :=
  (frames.map FrameMeta.global_frame_number).dedup

/-- The ascending list of distinct keys present in both cameras,
`sorted(set(cam0_map.keys()) & set(cam1_map.keys()))` of
find_frame_pairs (frame_stitching.py, line 77). -/
def commonFrameNumbers (cam0_frames cam1_frames : List FrameMeta) : List Nat :=
  List.insertionSort (fun a b : Nat => a ≤ b)
    ((frameKeys cam0_frames).filter (fun n => (frameKeys cam1_frames).contains n))

/-- Embedding of FrameStitcher.find_frame_pairs (frame_stitching.py,
lines 58-91): each common key is resolved to one (cam0, cam1) pair
through the two maps (line 89). -/
def find_frame_pairs (cam0_frames cam1_frames : List FrameMeta) :
    List (FrameMeta × FrameMeta) :=
  (commonFrameNumbers cam0_frames cam1_frames).filterMap (fun n =>
    match camMapLookup cam0_frames n, camMapLookup cam1_frames n with
    | some a, some b => some (a, b)
    | _, _ => none)

/-- Keys present in cam0 but not cam1, reported as a warning count in
find_frame_pairs (frame_stitching.py, lines 80 and 83-84). -/
def cam0_only_keys (cam0_frames cam1_frames : List FrameMeta) : List Nat :=
  (frameKeys cam0_frames).filter (fun n => !((frameKeys cam1_frames).contains n))

/-- Keys present in cam1 but not cam0, reported as a warning count in
find_frame_pairs (frame_stitching.py, lines 81 and 85-86). -/
def cam1_only_keys (cam0_frames cam1_frames : List FrameMeta) : List Nat :=
  (frameKeys cam1_frames).filter (fun n => !((frameKeys cam0_frames).contains n))

lemma camMapLookup_isSome (frames : List FrameMeta) (n : Nat)
    (h : n ∈ frames.map FrameMeta.global_frame_number) :
    ∃ f, camMapLookup frames n = some f ∧ f.global_frame_number = n := by
  obtain ⟨f0, hf0, hk⟩ := List.mem_map.mp h
  have hne : frames.filter (fun f => f.global_frame_number == n) ≠ [] := by
    intro hnil
    have : f0 ∈ frames.filter (fun f => f.global_frame_number == n) :=
      List.mem_filter.mpr ⟨hf0, by simp [hk]⟩
    rw [hnil] at this
    exact absurd this (List.not_mem_nil f0)
  have hsome := List.getLast?_isSome.mpr hne
  obtain ⟨f, hf⟩ := Option.isSome_iff_exists.mp hsome
  refine ⟨f, hf, ?_⟩
  have hmem : f ∈ frames.filter (fun g => g.global_frame_number == n) :=
    List.mem_of_mem_getLast? (by simp [camMapLookup] at hf; simp [hf])
  have := (List.mem_filter.mp hmem).2
  simpa using this

lemma commonFrameNumbers_mem (cam0_frames cam1_frames : List FrameMeta) (n : Nat) :
    n ∈ commonFrameNumbers cam0_frames cam1_frames ↔
      (n ∈ cam0_frames.map FrameMeta.global_frame_number
        ∧ n ∈ cam1_frames.map FrameMeta.global_frame_number) := by
  unfold commonFrameNumbers
  rw [(List.perm_insertionSort (fun a b : Nat => a ≤ b) _).mem_iff]
  rw [List.mem_filter]
  unfold frameKeys
  rw [List.mem_dedup]
  constructor
  · rintro ⟨h1, h2⟩
    simp only [List.contains_iff_exists_mem_beq] at h2
    obtain ⟨m, hm, hbeq⟩ := h2
    exact ⟨h1, by rw [show n = m by simpa using hbeq]; exact List.mem_dedup.mp hm⟩
  · rintro ⟨h1, h2⟩
    refine ⟨h1, ?_⟩
    simp only [List.contains_iff_exists_mem_beq]
    exact ⟨n, List.mem_dedup.mpr h2, by simp⟩

lemma pairs_map_key_generic (cam0_frames cam1_frames : List FrameMeta) :
    ∀ (common : List Nat),
      (∀ n ∈ common,
        n ∈ cam0_frames.map FrameMeta.global_frame_number
        ∧ n ∈ cam1_frames.map FrameMeta.global_frame_number) →
      (common.filterMap (fun n =>
        match camMapLookup cam0_frames n, camMapLookup cam1_frames n with
        | some a, some b => some (a, b)
        | _, _ => none)).map (fun p => p.1.global_frame_number) = common := by
  intro common
  induction common with
  | nil => intro _; simp
  | cons n rest ih =>
      intro hmem
      obtain ⟨h0, h1⟩ := hmem n (List.mem_cons_self n rest)
      obtain ⟨a, ha, hka⟩ := camMapLookup_isSome cam0_frames n h0
      obtain ⟨b, hb, hkb⟩ := camMapLookup_isSome cam1_frames n h1
      simp only [List.filterMap_cons, ha, hb]
      simp only [List.map_cons]
      rw [ih (fun m hm => hmem m (List.mem_cons_of_mem n hm))]
      simp [hka]

lemma pairs_map_fst_key (cam0_frames cam1_frames : List FrameMeta) :
    (find_frame_pairs cam0_frames cam1_frames).map (fun p => p.1.global_frame_number)
      = commonFrameNumbers cam0_frames cam1_frames := by
  unfold find_frame_pairs
  exact pairs_map_key_generic cam0_frames cam1_frames _
    (fun n hn => (commonFrameNumbers_mem cam0_frames cam1_frames n).mp hn)

/-- C4: pairing emits exactly one pair per global frame number present
in both cameras (exact key equality, no tolerance), in ascending key
order; each pair joins two frames with the same key; frames present in
only one camera land in the warned-about difference sets and never make
pairing fail.  Concretely, cam0 keys {1, 101, 201} against cam1 keys
{1, 101, 301} pair to exactly [1, 101] with unmatched sets [201] and
[301]. -/
theorem pairing_correctness (cam0_frames cam1_frames : List FrameMeta) :
    (∀ n : Nat,
      ((find_frame_pairs cam0_frames cam1_frames).map
          (fun p => p.1.global_frame_number)).count n
        = if n ∈ cam0_frames.map FrameMeta.global_frame_number
              ∧ n ∈ cam1_frames.map FrameMeta.global_frame_number
          then 1 else 0)
    ∧ List.Pairwise (fun p q : FrameMeta × FrameMeta =>
        p.1.global_frame_number < q.1.global_frame_number)
        (find_frame_pairs cam0_frames cam1_frames)
    ∧ (∀ p ∈ find_frame_pairs cam0_frames cam1_frames,
        p.1.global_frame_number = p.2.global_frame_number)
    ∧ ((find_frame_pairs
          [⟨1, "cam0", "a1"⟩, ⟨101, "cam0", "a2"⟩, ⟨201, "cam0", "a3"⟩]
          [⟨1, "cam1", "b1"⟩, ⟨101, "cam1", "b2"⟩, ⟨301, "cam1", "b3"⟩]).map
        (fun p => p.1.global_frame_number) = [1, 101]
        ∧ cam0_only_keys
            [⟨1, "cam0", "a1"⟩, ⟨101, "cam0", "a2"⟩, ⟨201, "cam0", "a3"⟩]
            [⟨1, "cam1", "b1"⟩, ⟨101, "cam1", "b2"⟩, ⟨301, "cam1", "b3"⟩] = [201]
        ∧ cam1_only_keys
            [⟨1, "cam0", "a1"⟩, ⟨101, "cam0", "a2"⟩, ⟨201, "cam0", "a3"⟩]
            [⟨1, "cam1", "b1"⟩, ⟨101, "cam1", "b2"⟩, ⟨301, "cam1", "b3"⟩] = [301]) := by
  have hmap := pairs_map_fst_key cam0_frames cam1_frames
  have hmemc := commonFrameNumbers_mem cam0_frames cam1_frames
  have hnodup : (commonFrameNumbers cam0_frames cam1_frames).Nodup := by
    unfold commonFrameNumbers
    exact ((List.perm_insertionSort (fun a b : Nat => a ≤ b) _).nodup_iff).mpr
      ((List.nodup_dedup _).filter _)
  have hsorted : List.Pairwise (fun a b : Nat => a ≤ b)
      (commonFrameNumbers cam0_frames cam1_frames) := by
    unfold commonFrameNumbers
    exact List.sorted_insertionSort (fun a b : Nat => a ≤ b) _
  have hlt : List.Pairwise (fun a b : Nat => a < b)
      (commonFrameNumbers cam0_frames cam1_frames) :=
    (hsorted.and hnodup).imp (fun h => lt_of_le_of_ne h.1 h.2)
  refine ⟨?_, ?_, ?_, by decide, by decide, by decide⟩
  · intro n
    rw [hmap]
    by_cases h : n ∈ commonFrameNumbers cam0_frames cam1_frames
    · rw [if_pos ((hmemc n).mp h)]
      exact List.count_eq_one_of_mem hnodup h
    · rw [if_neg (fun hc => h ((hmemc n).mpr hc))]
      exact List.count_eq_zero.mpr h
  · have hpw : List.Pairwise (fun a b : Nat => a < b)
        ((find_frame_pairs cam0_frames cam1_frames).map
          (fun p => p.1.global_frame_number)) := by
      rw [hmap]
      exact hlt
    exact List.pairwise_map.mp hpw
  · intro p hp
    unfold find_frame_pairs at hp
    obtain ⟨n, hn, hpn⟩ := List.mem_filterMap.mp hp
    obtain ⟨h0, h1⟩ := (hmemc n).mp hn
    obtain ⟨a, ha, hka⟩ := camMapLookup_isSome cam0_frames n h0
    obtain ⟨b, hb, hkb⟩ := camMapLookup_isSome cam1_frames n h1
    rw [ha, hb] at hpn
    simp only [Option.some.injEq] at hpn
    rw [← hpn]
    rw [hka, hkb]

/-- Witness for pairing_correctness: in the concrete example the pair
at key 101 joins two frames with the same global frame number. -/
theorem pairing_correctness_witness :
    ((⟨101, "cam0", "a2"⟩, (⟨101, "cam1", "b2"⟩ : FrameMeta))
        : FrameMeta × FrameMeta).1.global_frame_number
      = ((⟨101, "cam0", "a2"⟩, (⟨101, "cam1", "b2"⟩ : FrameMeta))
        : FrameMeta × FrameMeta).2.global_frame_number :=
  (pairing_correctness
    [⟨1, "cam0", "a1"⟩, ⟨101, "cam0", "a2"⟩, ⟨201, "cam0", "a3"⟩]
    [⟨1, "cam1", "b1"⟩, ⟨101, "cam1", "b2"⟩, ⟨301, "cam1", "b3"⟩]).2.2.1
    (⟨101, "cam0", "a2"⟩, (⟨101, "cam1", "b2"⟩ : FrameMeta)) (by decide)

/-- Embedding of the timestamp records of the per-segment JSONL logs
read by TimestampAnalyzer.load_timestamps (timestamp_analysis.py,
lines 58-80).  The analysis reads only the pts_us field (presentation
timestamp in microseconds); the local index i is carried along. -/
structure TimestampRecord where
  i : Nat
  pts_us : Int
deriving DecidableEq, Repr

/-- Embedding of TimestampStats (timestamp_analysis.py, lines 15-27).
The source computes in float; the model computes exactly in the
rationals.  The source field frame_interval_std_ms holds the square
root of a sample variance, which leaves the rationals, so the variance
itself (the square of the stored value, with the n-1 denominator used
by statistics.stdev) is carried instead; no claim reads this field. -/
structure TimestampStats where
  total_frames : Nat
  start_time_us : Int
  end_time_us : Int
  duration_seconds : Rat
  avg_framerate : Rat
  avg_frame_interval_ms : Rat
  frame_interval_var_ms2 : Rat
  min_interval_ms : Rat
  max_interval_ms : Rat
deriving DecidableEq, Repr

/-- Arithmetic mean, statistics.mean.  The guards in the callers keep
the argument nonempty, matching the StatisticsError contract. -/
def ratMean (l : List Rat) : Rat :=
  l.sum / (l.length : Rat)

/-- Square of statistics.stdev: the sample variance with denominator
n - 1. -/
def sampleVar (l : List Rat) : Rat :=
  ((l.map (fun x => (x - ratMean l) ^ 2)).sum) / ((l.length : Rat) - 1)

/-- Python min over a nonempty list (callers guard emptiness). -/
def listMin : List Rat → Rat
  | [] => 0
  | x :: xs => xs.foldl min x

/-- Python max over a nonempty list (callers guard emptiness). -/
def listMax : List Rat → Rat
  | [] => 0
  | x :: xs => xs.foldl max x

/-- Embedding of TimestampAnalyzer.calculate_timestamp_stats
(timestamp_analysis.py, lines 82-125): fewer than 2 records raise a
ValueError (modelled as Except.error), line 92-93; otherwise the
instantaneous intervals, their mean / spread / extrema and the average
framerate are computed (lines 95-125). -/
def calculate_timestamp_stats (timestamps : List TimestampRecord) :
    Except String TimestampStats :=
  if timestamps.length < 2 then
    Except.error "Need at least 2 timestamps for analysis"
  else
    let start_time_us := (timestamps.headD ⟨0, 0⟩).pts_us
    let end_time_us := (timestamps.getLastD ⟨0, 0⟩).pts_us
    let duration_seconds : Rat := ((end_time_us - start_time_us : Int) : Rat) / 1000000
    let intervals_ms : List Rat := (timestamps.tail.zip timestamps).map
      (fun p => ((p.1.pts_us - p.2.pts_us : Int) : Rat) / 1000)
    Except.ok {
      total_frames := timestamps.length,
      start_time_us := start_time_us,
      end_time_us := end_time_us,
      duration_seconds := duration_seconds,
      avg_framerate :=
        if duration_seconds > 0 then (timestamps.length : Rat) / duration_seconds else 0,
      avg_frame_interval_ms := ratMean intervals_ms,
      frame_interval_var_ms2 :=
        if 1 < intervals_ms.length then sampleVar intervals_ms else 0,
      min_interval_ms := listMin intervals_ms,
      max_interval_ms := listMax intervals_ms }

/-- The sampled index selection of TimestampAnalyzer.analyze_time_drift
(timestamp_analysis.py, lines 141-148): all indices when the shorter
series fits in sample_points, otherwise sample_points indices spaced by
the integer step min_frames // sample_points, starting at 0. -/
def sampleIndices (min_frames sample_points : Nat) : List Nat :=
  if min_frames ≤ sample_points then
    List.range min_frames
  else
    (List.range sample_points).map (fun i => i * (min_frames / sample_points))

/-- The absolute per-index drifts appended to the drifts list
(timestamp_analysis.py, lines 153-158): drift_ms is the cam0 minus cam1
timestamp at the same index, divided by 1000, and its absolute value is
kept for the statistics. -/
def driftValues (sample_points : Nat) (cam0_timestamps cam1_timestamps : List TimestampRecord) :
    List Rat :=
  (sampleIndices (min cam0_timestamps.length cam1_timestamps.length) sample_points).map
    (fun idx =>
      |(((cam0_timestamps.getD idx ⟨0, 0⟩).pts_us
          - (cam1_timestamps.getD idx ⟨0, 0⟩).pts_us : Int) : Rat) / 1000|)

/-- The detailed sample tuples (frame_idx, cam0_time_s, cam1_time_s,
signed drift_ms) collected for the report (timestamp_analysis.py,
lines 160-163). -/
def driftSamples (sample_points : Nat) (cam0_timestamps cam1_timestamps : List TimestampRecord) :
    List (Nat × Rat × Rat × Rat) :=
  (sampleIndices (min cam0_timestamps.length cam1_timestamps.length) sample_points).map
    (fun idx =>
      (idx,
       (((cam0_timestamps.getD idx ⟨0, 0⟩).pts_us
          - (cam0_timestamps.headD ⟨0, 0⟩).pts_us : Int) : Rat) / 1000000,
       (((cam1_timestamps.getD idx ⟨0, 0⟩).pts_us
          - (cam1_timestamps.headD ⟨0, 0⟩).pts_us : Int) : Rat) / 1000000,
       (((cam0_timestamps.getD idx ⟨0, 0⟩).pts_us
          - (cam1_timestamps.getD idx ⟨0, 0⟩).pts_us : Int) : Rat) / 1000))

/-- The four-bucket histogram of the absolute drifts
(timestamp_analysis.py, lines 169-175). -/
structure DriftDistribution where
  lt10 : Nat
  ge10lt30 : Nat
  ge30lt50 : Nat
  ge50 : Nat
deriving DecidableEq, Repr

/-- Bucket counting of timestamp_analysis.py, lines 170-175: the keys
are labelled there as less than 10ms, 10-30ms, 30-50ms and at least
50ms. -/
def driftDistribution (drifts : List Rat) : DriftDistribution :=
  { lt10 := drifts.countP (fun d => decide (d < 10)),
    ge10lt30 := drifts.countP (fun d => decide (10 ≤ d ∧ d < 30)),
    ge30lt50 := drifts.countP (fun d => decide (30 ≤ d ∧ d < 50)),
    ge50 := drifts.countP (fun d => decide (50 ≤ d)) }

/-- The tuple returned by analyze_time_drift (timestamp_analysis.py,
lines 165-177), with the drift standard deviation carried as its
square. -/
structure DriftResult where
  avg_drift_ms : Rat
  max_drift_ms : Rat
  drift_var_ms2 : Rat
  distribution : DriftDistribution
  sample_drifts : List (Nat × Rat × Rat × Rat)
deriving DecidableEq, Repr

/-- Embedding of TimestampAnalyzer.analyze_time_drift
(timestamp_analysis.py, lines 127-177).  With an empty sample list the
source statistics.mean at line 165 raises StatisticsError; the callers
reach this code only with both series of length at least 2. -/
def analyze_time_drift (sample_points : Nat)
    (cam0_timestamps cam1_timestamps : List TimestampRecord) :
    Except String DriftResult :=
  if (driftValues sample_points cam0_timestamps cam1_timestamps).isEmpty then
    Except.error "statistics.mean requires at least one data point"
  else
    Except.ok {
      avg_drift_ms := ratMean (driftValues sample_points cam0_timestamps cam1_timestamps),
      max_drift_ms := listMax (driftValues sample_points cam0_timestamps cam1_timestamps),
      drift_var_ms2 :=
        if 1 < (driftValues sample_points cam0_timestamps cam1_timestamps).length then
          sampleVar (driftValues sample_points cam0_timestamps cam1_timestamps)
        else 0,
      distribution := driftDistribution (driftValues sample_points cam0_timestamps cam1_timestamps),
      sample_drifts := driftSamples sample_points cam0_timestamps cam1_timestamps }

/-- The four quality levels used by _calculate_rating
(timestamp_analysis.py, lines 228-281): excellent, good, fair and poor
stand for the source strings 优秀, 良好, 一般 and 较差 (and for the
decorated overall strings built from them). -/
inductive Quality where
  | excellent
  | good
  | fair
  | poor
deriving DecidableEq, Repr

/-- The recommendation strings appended by _calculate_rating, carried
as tags: the five conditionally appended messages of lines 251-266 and
the affirmative default of line 279. -/
inductive RecTag where
  | useTimestampMatching10to30
  | stronglyUseTimestampMatching30to50
  | mustUseTimestampMatching50
  | maxDriftPossibleFrameLoss
  | lowExcellentBucketRatio
  | frameNumberMatchingSufficient
deriving DecidableEq, Repr

/-- Embedding of TimestampAnalyzer._calculate_rating
(timestamp_analysis.py, lines 228-281).  The source computes the drift
class and its recommendation in one if chain; here the class and the
recommendation list read the same conditions twice, which is the same
function. -/
def calculate_rating (start_delay_ms avg_drift_ms max_drift_ms : Rat)
    (distribution : DriftDistribution) (total_samples : Nat) :
    Quality × List RecTag :=
  let start_quality :=
    if |start_delay_ms| < 10 then Quality.excellent
    else if |start_delay_ms| < 50 then Quality.good
    else Quality.fair
  let drift_quality :=
    if avg_drift_ms < 10 then Quality.excellent
    else if avg_drift_ms < 30 then Quality.good
    else if avg_drift_ms < 50 then Quality.fair
    else Quality.poor
  let recs1 : List RecTag :=
    if avg_drift_ms < 10 then []
    else if avg_drift_ms < 30 then [RecTag.useTimestampMatching10to30]
    else if avg_drift_ms < 50 then [RecTag.stronglyUseTimestampMatching30to50]
    else [RecTag.mustUseTimestampMatching50]
  let recs2 := recs1 ++
    (if max_drift_ms > 100 then [RecTag.maxDriftPossibleFrameLoss] else [])
  let good_ratio : Rat :=
    if total_samples > 0 then (distribution.lt10 : Rat) / (total_samples : Rat) else 0
  let recs3 := recs2 ++
    (if good_ratio < 1 / 2 then [RecTag.lowExcellentBucketRatio] else [])
  let overall :=
    if drift_quality = Quality.excellent ∧ start_quality = Quality.excellent then
      Quality.excellent
    else if (drift_quality = Quality.excellent ∨ drift_quality = Quality.good)
        ∧ (start_quality = Quality.excellent ∨ start_quality = Quality.good) then
      Quality.good
    else if drift_quality = Quality.fair then Quality.fair
    else Quality.poor
  let recs4 := if recs3.isEmpty then [RecTag.frameNumberMatchingSufficient] else recs3
  (overall, recs4)

/-- Embedding of SyncAnalysis (timestamp_analysis.py, lines 29-42). -/
structure SyncAnalysis where
  cam0_stats : TimestampStats
  cam1_stats : TimestampStats
  start_delay_ms : Rat
  duration_diff_seconds : Rat
  avg_time_drift_ms : Rat
  max_time_drift_ms : Rat
  time_drift_var_ms2 : Rat
  drift_distribution : DriftDistribution
  sample_drifts : List (Nat × Rat × Rat × Rat)
  overall_rating : Quality
  recommendations : List RecTag
deriving DecidableEq, Repr

/-- Embedding of TimestampAnalyzer.analyze_sync_quality
(timestamp_analysis.py, lines 179-226): per-camera statistics first
(their ValueError propagates), then start delay, duration difference,
drift analysis and the rating. -/
def analyze_sync_quality (sample_points : Nat)
    (cam0_timestamps cam1_timestamps : List TimestampRecord) :
    Except String SyncAnalysis := do
  let cam0_stats ← calculate_timestamp_stats cam0_timestamps
  let cam1_stats ← calculate_timestamp_stats cam1_timestamps
  let start_delay_ms : Rat :=
    ((cam0_stats.start_time_us - cam1_stats.start_time_us : Int) : Rat) / 1000
  let drift ← analyze_time_drift sample_points cam0_timestamps cam1_timestamps
  let rating := calculate_rating start_delay_ms drift.avg_drift_ms drift.max_drift_ms
    drift.distribution drift.sample_drifts.length
  pure {
    cam0_stats := cam0_stats,
    cam1_stats := cam1_stats,
    start_delay_ms := start_delay_ms,
    duration_diff_seconds := cam0_stats.duration_seconds - cam1_stats.duration_seconds,
    avg_time_drift_ms := drift.avg_drift_ms,
    max_time_drift_ms := drift.max_drift_ms,
    time_drift_var_ms2 := drift.drift_var_ms2,
    drift_distribution := drift.distribution,
    sample_drifts := drift.sample_drifts,
    overall_rating := rating.1,
    recommendations := rating.2 }

/-- The timestamp-analysis step of main.run (main.py, lines 271-289):
the call is wrapped in a try/except that logs a warning and leaves
sync_analysis as None on any exception, so an analysis error becomes an
absent result, never a crash of the run. -/
def runTimestampAnalysis (sample_points : Nat)
    (cam0_timestamps cam1_timestamps : List TimestampRecord) :
    Option SyncAnalysis :=
  (analyze_sync_quality sample_points cam0_timestamps cam1_timestamps).toOption

/-- Embedding of VideoDiscovery.validate_frame_count_difference
(video_discovery.py, lines 238-274): both totals zero short-circuits to
(False, 0.0, 0); otherwise the percentage difference relative to the
larger total is compared against the threshold. -/
def validate_frame_count_difference (cam0_total cam1_total : Nat)
    (threshold_percent : Rat) : Bool × Rat × Nat :=
  if cam0_total = 0 ∧ cam1_total = 0 then
    (false, 0, 0)
  else
    let absolute_diff := ((cam0_total : Int) - (cam1_total : Int)).natAbs
    let max_frames := max cam0_total cam1_total
    let difference_percent : Rat :=
      if max_frames = 0 then 0
      else ((absolute_diff : Rat) / (max_frames : Rat)) * 100
    (difference_percent > threshold_percent, difference_percent, absolute_diff)

lemma countP_partition_four {α : Type} (p1 p2 p3 p4 : α → Bool)
    (h : ∀ x, (if p1 x then 1 else 0) + (if p2 x then 1 else 0)
      + (if p3 x then 1 else 0) + (if p4 x then 1 else 0) = 1) :
    ∀ l : List α,
      l.countP p1 + l.countP p2 + l.countP p3 + l.countP p4 = l.length := by
  intro l
  induction l with
  | nil => simp
  | cons a l ih =>
      have ha := h a
      simp only [List.countP_cons, List.length_cons]
      omega

/-- C9: the four distribution buckets partition any drift sample list,
so their counts sum exactly to the number of samples. -/
theorem drift_bucket_totals (drifts : List Rat) :
    (driftDistribution drifts).lt10 + (driftDistribution drifts).ge10lt30
      + (driftDistribution drifts).ge30lt50 + (driftDistribution drifts).ge50
    = drifts.length := by
  unfold driftDistribution
  refine countP_partition_four _ _ _ _ ?_ drifts
  intro x
  by_cases h1 : x < (10 : Rat)
  · have b1 : decide (x < (10 : Rat)) = true := by simpa using h1
    have b2 : decide ((10 : Rat) ≤ x ∧ x < 30) = false :=
      decide_eq_false (fun h => absurd h.1 (not_le.mpr h1))
    have b3 : decide ((30 : Rat) ≤ x ∧ x < 50) = false :=
      decide_eq_false (fun h => absurd h.1 (not_le.mpr (by linarith)))
    have b4 : decide ((50 : Rat) ≤ x) = false :=
      decide_eq_false (fun h => absurd h (not_le.mpr (by linarith)))
    simp [b1, b2, b3, b4]
  · by_cases h2 : x < (30 : Rat)
    · have b1 : decide (x < (10 : Rat)) = false := decide_eq_false h1
      have b2 : decide ((10 : Rat) ≤ x ∧ x < 30) = true := by
        simp only [decide_eq_true_eq]
        exact ⟨not_lt.mp h1, h2⟩
      have b3 : decide ((30 : Rat) ≤ x ∧ x < 50) = false :=
        decide_eq_false (fun h => absurd h.1 (not_le.mpr h2))
      have b4 : decide ((50 : Rat) ≤ x) = false :=
        decide_eq_false (fun h => absurd h (not_le.mpr (by linarith)))
      simp [b1, b2, b3, b4]
    · by_cases h3 : x < (50 : Rat)
      · have b1 : decide (x < (10 : Rat)) = false := decide_eq_false h1
        have b2 : decide ((10 : Rat) ≤ x ∧ x < 30) = false :=
          decide_eq_false (fun h => absurd h.2 h2)
        have b3 : decide ((30 : Rat) ≤ x ∧ x < 50) = true := by
          simp only [decide_eq_true_eq]
          exact ⟨not_lt.mp h2, h3⟩
        have b4 : decide ((50 : Rat) ≤ x) = false :=
          decide_eq_false (fun h => absurd h (not_le.mpr h3))
        simp [b1, b2, b3, b4]
      · have b1 : decide (x < (10 : Rat)) = false := decide_eq_false h1
        have b2 : decide ((10 : Rat) ≤ x ∧ x < 30) = false :=
          decide_eq_false (fun h => absurd h.2 h2)
        have b3 : decide ((30 : Rat) ≤ x ∧ x < 50) = false :=
          decide_eq_false (fun h => absurd h.2 h3)
        have b4 : decide ((50 : Rat) ≤ x) = true := by
          simp only [decide_eq_true_eq]
          exact not_lt.mp h3
        simp [b1, b2, b3, b4]

lemma driftSamples_map_fst (sp : Nat) (c0 c1 : List TimestampRecord) :
    (driftSamples sp c0 c1).map (fun s => s.1)
      = sampleIndices (min c0.length c1.length) sp := by
  unfold driftSamples
  rw [List.map_map]
  exact List.map_id _

lemma driftValues_eq_map_abs (sp : Nat) (c0 c1 : List TimestampRecord) :
    driftValues sp c0 c1 = (driftSamples sp c0 c1).map (fun s => |s.2.2.2|) := by
  unfold driftValues driftSamples
  rw [List.map_map]
  rfl

lemma sampleIndices_ne_nil (m sp : Nat) (hsp : 1 ≤ sp) (hm : 1 ≤ m) :
    sampleIndices m sp ≠ [] := by
  unfold sampleIndices
  split
  · simp [List.range_eq_nil]
    omega
  · simp [List.range_eq_nil]
    omega

/-- C8: drift sampling is deterministic and index-based.  With m the
shorter series length, all indices 0..m-1 are sampled when m fits in
sample_points, else exactly the indices i * (m / sample_points) for
i below sample_points; the signed drift recorded at a sampled index is
the cam0 minus cam1 timestamp at that same index divided by 1000, and
the statistics and distribution are computed from the absolute values
of exactly these drifts. -/
theorem drift_sampling (sp : Nat) (c0 c1 : List TimestampRecord)
    (hsp : 1 ≤ sp) (hm : 1 ≤ min c0.length c1.length) :
    ∃ r, analyze_time_drift sp c0 c1 = Except.ok r
      ∧ (min c0.length c1.length ≤ sp →
          r.sample_drifts.map (fun s => s.1) = List.range (min c0.length c1.length))
      ∧ (sp < min c0.length c1.length →
          r.sample_drifts.map (fun s => s.1)
            = (List.range sp).map (fun i => i * (min c0.length c1.length / sp)))
      ∧ (∀ s ∈ r.sample_drifts,
          s.2.2.2 = (((c0.getD s.1 ⟨0, 0⟩).pts_us
            - (c1.getD s.1 ⟨0, 0⟩).pts_us : Int) : Rat) / 1000)
      ∧ r.avg_drift_ms = ratMean (r.sample_drifts.map (fun s => |s.2.2.2|))
      ∧ r.distribution = driftDistribution (r.sample_drifts.map (fun s => |s.2.2.2|)) := by
  have hne : ¬ (driftValues sp c0 c1).isEmpty = true := by
    unfold driftValues
    rw [List.isEmpty_iff, List.map_eq_nil_iff]
    exact sampleIndices_ne_nil _ _ hsp hm
  refine ⟨_, by unfold analyze_time_drift; rw [if_neg hne], ?_, ?_, ?_, ?_, ?_⟩
  · intro hle
    rw [driftSamples_map_fst]
    unfold sampleIndices
    rw [if_pos hle]
  · intro hgt
    rw [driftSamples_map_fst]
    unfold sampleIndices
    rw [if_neg (by omega)]
  · intro s hs
    unfold driftSamples at hs
    obtain ⟨idx, -, rfl⟩ := List.mem_map.mp hs
    rfl
  · rw [driftValues_eq_map_abs]
  · rw [driftValues_eq_map_abs]

/-- Witness for drift_sampling: three records per camera and
sample_points 2, so the step is 3 / 2 = 1 and the sampled indices are
[0, 1]. -/
theorem drift_sampling_witness :
    ∃ r, analyze_time_drift 2
        [⟨0, 0⟩, ⟨1, 1000⟩, ⟨2, 2000⟩] [⟨0, 500⟩, ⟨1, 1500⟩, ⟨2, 2500⟩]
      = Except.ok r
      ∧ r.sample_drifts.map (fun s => s.1) = [0, 1] := by
  obtain ⟨r, h1, -, h3, -, -, -⟩ := drift_sampling 2
    [⟨0, 0⟩, ⟨1, 1000⟩, ⟨2, 2000⟩] [⟨0, 500⟩, ⟨1, 1500⟩, ⟨2, 2500⟩]
    (by decide) (by decide)
  refine ⟨r, h1, ?_⟩
  rw [h3 (by decide)]
  decide

/-- C6: fewer than 2 records for a camera make the per-camera
statistics a reported insufficient-data error; the sync analysis then
returns that error rather than a value, and the pipeline wrapper
(modelling the try/except of main.run) turns it into an absent result
instead of a crash. -/
theorem insufficient_timestamp_data :
    (∀ ts : List TimestampRecord, ts.length < 2 →
      calculate_timestamp_stats ts
        = Except.error "Need at least 2 timestamps for analysis")
    ∧ (∀ (sp : Nat) (c0 c1 : List TimestampRecord),
        c0.length < 2 ∨ c1.length < 2 →
        (∃ e, analyze_sync_quality sp c0 c1 = Except.error e)
        ∧ runTimestampAnalysis sp c0 c1 = none) := by
  have hstats : ∀ ts : List TimestampRecord, ts.length < 2 →
      calculate_timestamp_stats ts
        = Except.error "Need at least 2 timestamps for analysis" := by
    intro ts h
    unfold calculate_timestamp_stats
    rw [if_pos h]
  refine ⟨hstats, ?_⟩
  intro sp c0 c1 h
  have herr : ∃ e, analyze_sync_quality sp c0 c1 = Except.error e := by
    by_cases h0 : c0.length < 2
    · refine ⟨"Need at least 2 timestamps for analysis", ?_⟩
      unfold analyze_sync_quality
      rw [hstats c0 h0]
      rfl
    · have h1 : c1.length < 2 := by omega
      obtain ⟨v, hv⟩ : ∃ v, calculate_timestamp_stats c0 = Except.ok v := by
        unfold calculate_timestamp_stats
        rw [if_neg h0]
        exact ⟨_, rfl⟩
      refine ⟨"Need at least 2 timestamps for analysis", ?_⟩
      unfold analyze_sync_quality
      rw [hv, hstats c1 h1]
      rfl
  obtain ⟨e, he⟩ := herr
  refine ⟨⟨e, he⟩, ?_⟩
  unfold runTimestampAnalysis
  rw [he]
  rfl

/-- Witness for insufficient_timestamp_data: a cam0 series of length 1
yields an absent analysis result. -/
theorem insufficient_timestamp_data_witness :
    runTimestampAnalysis 20 [⟨0, 0⟩] [⟨0, 0⟩, ⟨1, 40000⟩] = none :=
  (insufficient_timestamp_data.2 20 [⟨0, 0⟩] [⟨0, 0⟩, ⟨1, 40000⟩]
    (Or.inl (by decide))).2

/-- Modelled from the spec: classification of a value into the four
quality bands with boundaries 10 / 30 / 50 used for the average
drift. -/
def classifyDriftBand (x : Rat) : Quality :=
  if x < 10 then Quality.excellent
  else if x < 30 then Quality.good
  else if x < 50 then Quality.fair
  else Quality.poor

/-- The combination table shared by the claim and the source: excellent
when both classes are excellent, good when both are in
{excellent, good}, fair when the drift class is fair, poor
otherwise. -/
def combineRating (dq sq : Quality) : Quality :=
  if dq = Quality.excellent ∧ sq = Quality.excellent then Quality.excellent
  else if (dq = Quality.excellent ∨ dq = Quality.good)
      ∧ (sq = Quality.excellent ∨ sq = Quality.good) then Quality.good
  else if dq = Quality.fair then Quality.fair
  else Quality.poor

/-- Modelled from the spec (the claim as stated): the start delay is
classified by the same 10 / 30 / 50 band boundaries as the average
drift before combining. -/
def claimedRating (avg_drift_ms start_delay_ms : Rat) : Quality :=
  combineRating (classifyDriftBand avg_drift_ms) (classifyDriftBand |start_delay_ms|)

/-- Counterexample to C5 as stated: with average drift 5 ms and start
delay 40 ms the code classifies the start delay as good (its good band
extends to 50 ms) and rates the pair good, while the claimed decision
table classifies 40 ms as fair and must rate poor. -/
theorem rating_decision_table_counterexample :
    (calculate_rating 40 5 5 ⟨1, 0, 0, 0⟩ 1).1 = Quality.good
    ∧ claimedRating 5 40 = Quality.poor := by
  constructor
  · decide
  · decide

/-- C5 amended: the average drift is classified by the claimed
excellent(<10) / good(<30) / fair(<50) / poor bands, but the absolute
start delay is classified into only three bands with boundaries 10 and
50 — excellent(<10), good(<50), fair otherwise, never poor; the
combination rule is as claimed. -/
theorem rating_decision_table (start_delay_ms avg_drift_ms max_drift_ms : Rat)
    (distribution : DriftDistribution) (total_samples : Nat) :
    (calculate_rating start_delay_ms avg_drift_ms max_drift_ms
        distribution total_samples).1
      = combineRating (classifyDriftBand avg_drift_ms)
          (if |start_delay_ms| < 10 then Quality.excellent
           else if |start_delay_ms| < 50 then Quality.good
           else Quality.fair) := by
  simp only [calculate_rating, combineRating, classifyDriftBand]

/-- C10: the discrepancy decision is exactly the relative difference
test against the threshold; two empty cameras short-circuit to
(false, 0, 0) and never trigger the decision point. -/
theorem frame_count_threshold (c0 c1 : Nat) (t : Rat)
    (h0 : 0 ≤ t) (h1 : t ≤ 100) :
    ((validate_frame_count_difference c0 c1 t).1 = true
      ↔ |(c0 : Rat) - (c1 : Rat)| / ((max c0 c1 : Nat) : Rat) * 100 > t)
    ∧ validate_frame_count_difference 0 0 t = (false, 0, 0) := by
  constructor
  · by_cases hz : c0 = 0 ∧ c1 = 0
    · obtain ⟨rfl, rfl⟩ := hz
      unfold validate_frame_count_difference
      rw [if_pos ⟨rfl, rfl⟩]
      simp
      linarith
    · unfold validate_frame_count_difference
      rw [if_neg hz]
      have hmax : ¬ (max c0 c1 = 0) := by omega
      have habs : ((((c0 : Int) - (c1 : Int)).natAbs : Rat))
          = |(c0 : Rat) - (c1 : Rat)| := by
        rw [Int.cast_natAbs]
        push_cast
        rfl
      simp only [hmax, if_false, decide_eq_true_eq, habs]
  · unfold validate_frame_count_difference
    rw [if_pos ⟨rfl, rfl⟩]

/-- Witness for frame_count_threshold at the documented example
(15000, 14200, threshold 5). -/
theorem frame_count_threshold_witness :
    validate_frame_count_difference 0 0 5 = (false, 0, 0) :=
  (frame_count_threshold 15000 14200 5 (by norm_num) (by norm_num)).2

end VideoStitcher
